import Mathlib

/-!
Verification of the nodule-ngs2 pipeline (`src/script/all_in.py`,
`src/script/all_in_tools/demultiplex.py`, `src/script/all_in_tools/blast.py`).

The development shallowly embeds the three core subsystems:
* the consensus resolver (`Blastn._choose_highest_score`,
  `Blastn._get_result_intersection`, `Blastn._blast_search_multi`);
* the demultiplexer (`demultiplex`), including the occupancy counting step
  with Python list/pandas `.at` indexing semantics;
* the resumable pipeline engine (`AllIn.workflow_generator`,
  `AllInManager.run`, `AllInManager.__init__`).

Floating point e-values and bit-scores are embedded as rationals: the code
only compares them (`min`, `max`, `==`, sorting), never does arithmetic.
pandas `sort_values` is embedded as a stable insertion sort by e-value.
-/

namespace NoduleNGS

/-! ### Data model of `blast.py` -/

/-- One row of a blastn result DataFrame, after `Blastn._execute` has added
the provenance columns `query_file`, `query_name`, `query_seq`.  Columns not
inspected by the resolver (`mismatch`, `gapopen`, coordinates) are elided;
`pident` and `length` stand in for the payload that distinguishes rows. -/
structure Hit where
  qaccver : String
  saccver : String
  pident : ℚ
  length : ℕ
  evalue : ℚ
  bitscore : ℚ
  query_file : String
  query_name : String
  query_seq : String
deriving DecidableEq, Repr

/-- `BlastResultInfo` from `my_types.py`: a result table plus provenance and
the `intersection` flag (default `False`). -/
structure BlastResultInfo where
  result : List Hit
  query_file : String
  query_name : String
  query_seq : String
  intersection : Bool := false
deriving DecidableEq, Repr

/-- Stable insertion of a hit into a list sorted by ascending e-value; the
new element goes after all existing elements with e-value `≤` its own. -/
def insertByEvalue (a : Hit) : List Hit → List Hit
  | [] => [a]
  | b :: l => if b.evalue ≤ a.evalue then b :: insertByEvalue a l else a :: b :: l

/-- `DataFrame.sort_values(by=["evalue"])` as a stable sort. -/
def sortByEvalue (l : List Hit) : List Hit :=
  l.foldl (fun acc a => insertByEvalue a acc) []

/-- `Blastn._choose_highest_score`: sort by e-value, then keep exactly the
rows whose e-value equals the column minimum and whose bit-score equals the
column maximum.  The result is rebuilt with the original provenance and the
default `intersection := false`, as in the source. -/
def chooseHighestScore (b : BlastResultInfo) : BlastResultInfo :=
  let sorted := sortByEvalue b.result
  let minE := (sorted.map Hit.evalue).min?
  let maxB := (sorted.map Hit.bitscore).max?
  { result := sorted.filter fun h =>
      decide (some h.evalue = minE ∧ some h.bitscore = maxB),
    query_file := b.query_file
    query_name := b.query_name
    query_seq := b.query_seq }

/-- `set(d["saccver"])`: the subject accessions of one result table. -/
def accSet (b : BlastResultInfo) : Finset String :=
  (b.result.map Hit.saccver).toFinset

/-- The running union over all accession sets (`union_names` in the source). -/
def unionAcc (rs : List BlastResultInfo) : Finset String :=
  (rs.map accSet).foldl (· ∪ ·) ∅

/-- `reduce(f_and, names, union_names)`: fold intersection seeded with the
union of all accession sets. -/
def interAcc (rs : List BlastResultInfo) : Finset String :=
  (rs.map accSet).foldl (· ∩ ·) (unionAcc rs)

/-- `drop_duplicates(subset="saccver", keep="first")`, with the set of
already seen accessions made explicit. -/
def dedupGo (seen : Finset String) : List Hit → List Hit
  | [] => []
  | h :: t =>
    if h.saccver ∈ seen then dedupGo seen t
    else h :: dedupGo (insert h.saccver seen) t

/-- Deduplicate a hit list by subject accession, keeping first occurrences. -/
def dedupBySacc (l : List Hit) : List Hit := dedupGo ∅ l

/-- `pandas.Series.unique`: distinct values in order of first appearance. -/
def uniqueGo (seen : Finset String) : List String → List String
  | [] => []
  | s :: t =>
    if s ∈ seen then uniqueGo seen t
    else s :: uniqueGo (insert s seen) t

/-- Distinct values of a column, keeping first occurrences. -/
def uniqueKeepFirst (l : List String) : List String := uniqueGo ∅ l

/-- `":".join(...)`. -/
def joinColon (l : List String) : String := String.intercalate ":" l

/-- `Blastn._get_result_intersection`: intersect the accession sets (fold of
`∩` seeded with the union); if nonempty, concatenate the matching rows of
every table, sort by e-value, deduplicate by accession keeping the first
occurrence, and join the distinct provenance values with colons; otherwise
return `none`. -/
def getResultIntersection (rs : List BlastResultInfo) : Option BlastResultInfo :=
  let inter := interAcc rs
  if 0 < inter.card then
    let concatRows := (rs.map BlastResultInfo.result).foldl
      (fun acc d => acc ++ d.filter fun h => decide (h.saccver ∈ inter)) []
    let finalRows := dedupBySacc (sortByEvalue concatRows)
    some { result := finalRows
           query_file := joinColon (uniqueKeepFirst (finalRows.map Hit.query_file))
           query_name := joinColon (uniqueKeepFirst (finalRows.map Hit.query_name))
           query_seq := joinColon (uniqueKeepFirst (finalRows.map Hit.query_seq))
           intersection := true }
  else none

/-- `Blastn._blast_search_multi`, parametrised by the per-ContigSet single
results (the output of `_blast_search_single` per query file, which wraps the
external blastn binary): drop the `None`s, return a unique result verbatim,
and otherwise resolve by intersection. -/
def blastSearchMulti (individual : List (Option BlastResultInfo)) :
    Option BlastResultInfo :=
  match individual.filterMap id with
  | [] => none
  | [r] => some r
  | r :: r2 :: rest => getResultIntersection (r :: r2 :: rest)

/-- The claim-side "set of subject accessions common to all per-set result
tables", written directly from the spec wording (bounded by the union so it
is a `Finset`). -/
def commonAcc (rs : List BlastResultInfo) : Finset String :=
  (unionAcc rs).filter fun s => ∀ r ∈ rs, s ∈ accSet r

/-- The claim-side consensus hit table: all rows whose accession lies in the
common set, sorted by ascending e-value, deduplicated by accession keeping
the lowest-e-value occurrence. -/
def consensusRows (rs : List BlastResultInfo) : List Hit :=
  dedupBySacc (sortByEvalue
    (((rs.map BlastResultInfo.result).flatten).filter fun h =>
      decide (h.saccver ∈ commonAcc rs)))

/-! ### Data model of `demultiplex.py` -/

/-- One row of `sequence_df`: the four retained fastq fields of the forward
and reverse read, plus the extracted trailing name tokens. -/
structure PairRow where
  r1full : String
  r1name : String
  r1seq : String
  r1qual : String
  r2full : String
  r2name : String
  r2seq : String
  r2qual : String
deriving DecidableEq, Repr

/-- `cells.json` contents: well code to accepted (R1-name, R2-name) pairs,
in Python dict iteration order. -/
abbrev CellTable := List (String × List (String × String))

/-- The characters after the last space: the collector resets at every
space, so the final value is the last space-delimited token (possibly
empty), exactly the last element of Python's `split(" ")`. -/
def lastTokenAux (cur : List Char) : List Char → List Char
  | [] => cur
  | c :: rest => if c = ' ' then lastTokenAux [] rest else lastTokenAux (cur ++ [c]) rest

/-- `line.split(" ")[-1]`: the trailing space-delimited token. -/
def lastToken (s : String) : String := String.mk (lastTokenAux [] s.data)

/-- Group the flat fastq line list into (header, sequence, quality) triples,
taking lines 0, 1 and 3 of each 4-line record as the source does with
`range(0, fastq_length, 4)`.  On a line count not divisible by 4 the source
raises `IndexError` on the trailing partial record (`fastq[i+1]`); this
embedding drops that partial record instead, so theorems about read-pair
content are meaningful only on well-formed 4-line-per-record inputs, which
is what every concrete input here uses. -/
def toRecords : List String → List (String × String × String)
  | f :: s :: _ :: q :: rest => (f, s, q) :: toRecords rest
  | _ => []

/-- Build `sequence_df` from the two line lists (`pd.concat(..., axis=1)` on
two equal-length frames is a zip). -/
def buildRows (r1 r2 : List String) : List PairRow :=
  ((toRecords r1).zip (toRecords r2)).map fun x =>
    { r1full := x.1.1, r1name := lastToken x.1.1
      r1seq := x.1.2.1, r1qual := x.1.2.2
      r2full := x.2.1, r2name := lastToken x.2.1
      r2seq := x.2.2.1, r2qual := x.2.2.2 }

/-- The pandas `query` disjunction built for one well: a row matches if some
accepted pair equals its (R1-name, R2-name).  The source crashes on an empty
pair list (empty `query` string); theorems about this function therefore
assume nonempty pair lists where that matters. -/
def matchedRows (pairs : List (String × String)) (rows : List PairRow) :
    List PairRow :=
  rows.filter fun row =>
    pairs.any fun p => row.r1name == p.1 && row.r2name == p.2

/-- `cell_dfs`: every well is filtered independently against the full frame. -/
def cellDfs (cells : CellTable) (rows : List PairRow) :
    List (String × List PairRow) :=
  cells.map fun kv => (kv.1, matchedRows kv.2 rows)

/-- Python exceptions raised by the occupancy counting step.  Only the
plate-number computation can raise: `int(cell[0])` raises `ValueError` on a
non-digit, `cell[0]`/`cell[1]` raise `IndexError` on short codes, and
`plate[plate_no]` raises `IndexError` outside `[-6, 6)`.  The pandas `.at`
*setter* never raises on unknown labels — it falls back to `.loc`
setting-with-enlargement. -/
inductive PyError
  | valueError
  | indexError
deriving DecidableEq, Repr

/-- The pandas row labels of one plate grid. -/
def rowLabels : List Char := ['A', 'B', 'C', 'D', 'E', 'F', 'G', 'H']

/-- The pandas column labels of one plate grid. -/
def colLabels : List String :=
  ["01", "02", "03", "04", "05", "06", "07", "08", "09", "10", "11", "12"]

/-- Six 8×12 grids of read counts. -/
abbrev Plates := List (List (List ℕ))

/-- `np.zeros((8,12))` for six plates. -/
def initialPlates : Plates :=
  List.replicate 6 (List.replicate 8 (List.replicate 12 0))

/-- Python list indexing: non-negative indexes below the length are used as
is, negative indexes at least `-n` wrap around, anything else raises. -/
def pyListIdx (n : ℕ) (i : ℤ) : Option ℕ :=
  if 0 ≤ i ∧ i < n then some i.toNat
  else if -(n : ℤ) ≤ i ∧ i < 0 then some (i + n).toNat
  else none

/-- Write a count into plate `p`, row `r`, column `c`. -/
def setCount (plates : Plates) (p r c v : ℕ) : Plates :=
  plates.set p
    ((plates.getD p []).set r (((plates.getD p []).getD r []).set c v))

/-- Cells written through the `.loc` setting-with-enlargement fallback of
the pandas `.at` setter: when the row or column label is outside the grid,
pandas silently *adds* the label instead of raising, so the plate DataFrame
grows beyond its 8×12 start.  Keyed by (plate index, row label, column
label); a repeated write to the same enlarged cell overwrites it. -/
abbrev Enlarged := List ((ℕ × Char × String) × ℕ)

/-- Overwrite-or-append into the enlarged-cell overlay. -/
def upsertCell (l : Enlarged) (k : ℕ × Char × String) (v : ℕ) : Enlarged :=
  if l.any fun kv => kv.1 = k then
    l.map fun kv => if kv.1 = k then (k, v) else kv
  else l ++ [(k, v)]

/-- One iteration of the occupancy loop of `demultiplex`:

    plate_no = int(cell[0])-1
    row = cell[1]
    col = cell[2:4]
    plate[plate_no].at[row, col] = len(df)
    if len(df) == 0: empty_cells.append(cell)

with Python evaluation order: `cell[0]` (IndexError), `int` (ValueError on a
non-digit), `cell[1]` (IndexError), `plate[plate_no]` (IndexError, with
negative wrap-around).  The `.at` assignment itself never raises: for
in-grid labels it writes the count into the 8×12 grid, and for an unknown
row or column label `DataFrame._set_value` catches the lookup failure and
falls back to `self.loc[row, col] = n`, which enlarges the frame with the
new label (tracked here in the `Enlarged` overlay). -/
def countStep (acc : Plates × Enlarged × List String) (cell : String) (n : ℕ) :
    Except PyError (Plates × Enlarged × List String) := do
  let cs := cell.data
  let c0 ← match cs[0]? with
    | some c => pure c
    | none => throw PyError.indexError
  let d ← if c0.isDigit then pure ((c0.toNat : ℤ) - ('0'.toNat : ℤ))
    else throw PyError.valueError
  let rCh ← match cs[1]? with
    | some c => pure c
    | none => throw PyError.indexError
  let colStr := String.mk ((cs.drop 2).take 2)
  let pIdx ← match pyListIdx 6 (d - 1) with
    | some i => pure i
    | none => throw PyError.indexError
  let st :=
    match rowLabels.findIdx? (fun x => x == rCh),
        colLabels.findIdx? (fun x => x == colStr) with
    | some rIdx, some cIdx => (setCount acc.1 pIdx rIdx cIdx n, acc.2.1)
    | _, _ => (acc.1, upsertCell acc.2.1 (pIdx, rCh, colStr) n)
  pure (st.1, st.2, if n == 0 then acc.2.2 ++ [cell] else acc.2.2)

/-- The occupancy counting loop over all wells, in table order. -/
def countPlates (dfs : List (String × List PairRow)) :
    Except PyError (Plates × Enlarged × List String) :=
  dfs.foldlM (fun acc kv => countStep acc kv.1 kv.2.length)
    (initialPlates, [], [])

/-- What `demultiplex` exposes for one file pair: the per-well buckets that
are written to `cells/<well>/R{1,2}.fastq`, and the printed occupancy report
(the six plate grids — together with any cells pandas added by enlargement —
and the empty-cell list). -/
structure DemOut where
  buckets : List (String × List PairRow)
  plates : Plates
  enlarged : Enlarged
  emptyCells : List String
deriving DecidableEq, Repr

/-- Failure modes of one `demultiplex` iteration: the `exit(1)` on a line
count mismatch (a `SystemExit`, not caught by `except Exception`), or a
Python exception escaping the counting step. -/
inductive DemError
  | lengthMismatch
  | py (e : PyError)
deriving DecidableEq, Repr

/-- The per-file-pair body of `demultiplex`: assert equal line counts
(`exit(1)` otherwise), build `sequence_df`, split it into per-well frames,
and run the occupancy counting.  `r1` and `r2` are the fastq line lists
(after the source's `split('\n')[:-1]`). -/
def demultiplexOne (r1 r2 : List String) (cells : CellTable) :
    Except DemError DemOut :=
  if r1.length ≠ r2.length then throw DemError.lengthMismatch
  else
    let rows := buildRows r1 r2
    let dfs := cellDfs cells rows
    match countPlates dfs with
    | Except.error e => throw (DemError.py e)
    | Except.ok pe => pure ⟨dfs, pe.1, pe.2.1, pe.2.2⟩

/-- Modelled from the spec: the "discarded" total — the number of read pairs
matching no well.  The source (`demultiplex.py`) computes no such value;
this definition exists only to state claims about its absence. -/
def specDiscarded (cells : CellTable) (rows : List PairRow) : ℕ :=
  (rows.filter fun row =>
    !cells.any fun kv =>
      kv.2.any fun p => row.r1name == p.1 && row.r2name == p.2).length

/-! ### The pipeline engine of `all_in.py` -/

/-- How one stage body ends: normal return, an `Exception` (caught by
`AllInManager.run`), or a `SystemExit` (such as the demultiplexer's
`exit(1)`, which `except Exception` does not catch). -/
inductive StageOutcome
  | ok
  | exc
  | exitFatal
deriving DecidableEq, Repr

/-- `AllIn.step_name`. -/
def stageNames : List String :=
  ["cutadapt_tag", "cutadapt_primer", "fastp", "demultiplex",
   "assemble_all", "assemble_separete", "blast_all"]

/-- The name of stage `i`. -/
def stageName (i : ℕ) : String := stageNames.getD i ""

/-- Observable trace of one `AllInManager.run` call: every checkpoint with
the `step_counter` it pickles, the stages attempted in order, the stages
whose exception was logged, the in-memory counter at the end, and whether
the loop reached the `after_all` checkpoint. -/
structure RunTrace where
  checkpoints : List (String × ℕ)
  attempted : List ℕ
  errors : List ℕ
  finalCounter : ℕ
  completed : Bool
deriving DecidableEq, Repr

/-- The interplay of `workflow_generator` and `run`, on the list of stage
indices still to run.  When stage `i` is yielded the generator has already
set `step_counter := i` (for the first stage it is the restored counter), so
the `before_` checkpoint of stage `i` always records counter `i` — also when
the previous stage failed.  After the last stage the generator resumes once
more, sets the counter past the end, and `run` writes the `after_all`
checkpoint.  A `SystemExit` propagates and stops everything. -/
def runSteps (outcome : ℕ → StageOutcome) : List ℕ → ℕ → RunTrace
  | [], c => ⟨[("after_all", c)], [], [], c, true⟩
  | i :: rest, _ =>
    let chk := ("before_" ++ stageName i, i)
    match outcome i with
    | StageOutcome.exitFatal => ⟨[chk], [i], [], i, false⟩
    | StageOutcome.ok =>
      let t := runSteps outcome rest (i + 1)
      ⟨chk :: t.checkpoints, i :: t.attempted, t.errors, t.finalCounter,
        t.completed⟩
    | StageOutcome.exc =>
      let t := runSteps outcome rest (i + 1)
      ⟨chk :: t.checkpoints, i :: t.attempted, i :: t.errors, t.finalCounter,
        t.completed⟩

/-- The stage indices `workflow_generator` iterates over from a counter. -/
def stageList (start : ℕ) : List ℕ := (List.range 7).drop start

/-- `AllInManager.run` starting from a given `step_counter`. -/
def runEngine (start : ℕ) (outcome : ℕ → StageOutcome) : RunTrace :=
  runSteps outcome (stageList start) start

/-- The part of the pickled `AllIn` object that the resume path touches:
the stage cursor and the (opaque) settings. -/
structure PipeState where
  counter : ℕ
  settings : String
deriving DecidableEq, Repr

/-- The resume branch of `AllInManager.__init__`: unpickle the state as is,
then replace the settings when an override file is supplied (`read_settings`
is opaque here: the override value stands for its loaded contents). -/
def resume (chk : PipeState) (ov : Option String) : PipeState :=
  ⟨chk.counter, ov.getD chk.settings⟩

/-- The startup check of `AllIn.__init__`: cold starts require nonempty
argument lists of equal length (this counts fastq *files*, not records). -/
def allInStartCheck (r1Files r2Files : List String) : Bool :=
  !(r1Files.isEmpty || r2Files.isEmpty || r1Files.length != r2Files.length)

instance {ε α : Type} [DecidableEq ε] [DecidableEq α] :
    DecidableEq (Except ε α) := fun a b =>
  match a, b with
  | Except.error e, Except.error f =>
    if h : e = f then isTrue (by rw [h])
    else isFalse (by intro hc; cases hc; exact h rfl)
  | Except.error _, Except.ok _ => isFalse (by intro hc; cases hc)
  | Except.ok _, Except.error _ => isFalse (by intro hc; cases hc)
  | Except.ok x, Except.ok y =>
    if h : x = y then isTrue (by rw [h])
    else isFalse (by intro hc; cases hc; exact h rfl)

/-! ### Behaviour of the pipeline engine -/

/-- On a run in which no stage raises `SystemExit`, the engine attempts
exactly the listed stages once each, records the stages that raised, writes
a `before_` checkpoint carrying counter `i` for every stage `i` — the
counter having been advanced past each previous stage whether or not it
failed — and finishes with an `after_all` checkpoint. -/
theorem runSteps_no_fatal (outcome : ℕ → StageOutcome) :
    ∀ (l : List ℕ) (c : ℕ), (∀ i ∈ l, outcome i ≠ StageOutcome.exitFatal) →
      (runSteps outcome l c).attempted = l ∧
      (runSteps outcome l c).errors
        = l.filter (fun i => outcome i == StageOutcome.exc) ∧
      (runSteps outcome l c).checkpoints
        = l.map (fun i => ("before_" ++ stageName i, i))
          ++ [("after_all", (runSteps outcome l c).finalCounter)] ∧
      (runSteps outcome l c).finalCounter
        = (match l.getLast? with | none => c | some j => j + 1) ∧
      (runSteps outcome l c).completed = true
  | [], c, _ => by simp [runSteps]
  | i :: rest, c, h => by
    have ih := runSteps_no_fatal outcome rest (i + 1)
      (fun j hj => h j (List.mem_cons_of_mem _ hj))
    have hlast : ∀ x : ℕ,
        (match (i :: rest).getLast? with | none => x | some j => j + 1)
          = (match rest.getLast? with | none => i + 1 | some j => j + 1) := by
      intro x
      cases rest with
      | nil => rfl
      | cons b t =>
        rw [List.getLast?_cons_cons]
        obtain ⟨j, hj⟩ : ∃ j, (b :: t).getLast? = some j := by
          cases hbt : (b :: t).getLast? with
          | none => simp [List.getLast?_eq_none_iff] at hbt
          | some j => exact ⟨j, rfl⟩
        rw [hj]
    cases ho : outcome i with
    | exitFatal => exact absurd ho (h i (List.mem_cons_self i rest))
    | ok =>
      refine ⟨?_, ?_, ?_, ?_, ?_⟩ <;>
        simp [runSteps, ho, ih.1, ih.2.1, ih.2.2.1, ih.2.2.2.1, ih.2.2.2.2,
          hlast c]
    | exc =>
      refine ⟨?_, ?_, ?_, ?_, ?_⟩ <;>
        simp [runSteps, ho, ih.1, ih.2.1, ih.2.2.1, ih.2.2.2.1, ih.2.2.2.2,
          hlast c]

/-- For a counter below the stage count, the stage slice ends at stage 6. -/
theorem stageList_getLast? (start : ℕ) (h : start < 7) :
    (stageList start).getLast? = some 6 := by
  interval_cases start <;> rfl

/-- Stage indices below a counter are not in its stage slice. -/
theorem not_mem_stageList_of_lt (start i : ℕ) (h : i < start) :
    i ∉ stageList start := by
  intro hmem
  rcases Nat.lt_or_ge start 7 with hs | hs
  · interval_cases start <;>
      (simp only [stageList, List.range, List.range.loop] at hmem;
       simp at hmem; omega)
  · have : stageList start = [] := by
      simp [stageList, List.drop_eq_nil_iff]
      omega
    simp [this] at hmem

/-- C1 — corrected.  When a stage raises an `Exception`, `AllInManager.run`
logs it and the loop keeps going: the stage is attempted exactly once (no
retry), the error is recorded, the next stage is attempted regardless — but,
contrary to the claim, the cursor *is* advanced: resuming the generator for
stage `i + 1` sets `step_counter := i + 1` whether or not stage `i`
succeeded, so the checkpoint written before each stage `i` carries counter
`i` and the final counter is 7. -/
theorem c1_failure_records_and_advances (start : ℕ) (outcome : ℕ → StageOutcome)
    (hs : start < 7) (hnf : ∀ i, i < 7 → outcome i ≠ StageOutcome.exitFatal) :
    (runEngine start outcome).attempted = stageList start ∧
    (runEngine start outcome).attempted.Nodup ∧
    (runEngine start outcome).errors
      = (stageList start).filter (fun i => outcome i == StageOutcome.exc) ∧
    (runEngine start outcome).checkpoints
      = (stageList start).map (fun i => ("before_" ++ stageName i, i))
        ++ [("after_all", 7)] ∧
    (runEngine start outcome).finalCounter = 7 := by
  have hmem : ∀ i ∈ stageList start, outcome i ≠ StageOutcome.exitFatal := by
    intro i hi
    have hlt : i < 7 := by
      have : i ∈ List.range 7 := List.mem_of_mem_drop hi
      simpa [List.mem_range] using this
    exact hnf i hlt
  have h := runSteps_no_fatal outcome (stageList start) start hmem
  have hfin : (runEngine start outcome).finalCounter = 7 := by
    have := h.2.2.2.1
    rw [stageList_getLast? start hs] at this
    simpa [runEngine] using this
  have hnd : (stageList start).Nodup :=
    ((List.drop_sublist start (List.range 7)).nodup (List.nodup_range 7))
  refine ⟨h.1, ?_, h.2.1, ?_, hfin⟩
  · rw [show (runEngine start outcome).attempted = stageList start from h.1]
    exact hnd
  · have := h.2.2.1
    rw [show (runSteps outcome (stageList start) start).finalCounter = 7 from
      hfin] at this
    exact this

/-- Witness for `c1_failure_records_and_advances` at a run in which every
stage fails. -/
theorem c1_failure_records_and_advances_witness :
    0 < 7 ∧ (∀ i, i < 7 → (fun _ => StageOutcome.exc) i ≠ StageOutcome.exitFatal) ∧
    ((runEngine 0 fun _ => StageOutcome.exc).attempted = stageList 0 ∧
     (runEngine 0 fun _ => StageOutcome.exc).attempted.Nodup ∧
     (runEngine 0 fun _ => StageOutcome.exc).errors
       = (stageList 0).filter (fun i => (fun _ => StageOutcome.exc) i == StageOutcome.exc) ∧
     (runEngine 0 fun _ => StageOutcome.exc).checkpoints
       = (stageList 0).map (fun i => ("before_" ++ stageName i, i))
         ++ [("after_all", 7)] ∧
     (runEngine 0 fun _ => StageOutcome.exc).finalCounter = 7) :=
  ⟨by decide, by decide,
    c1_failure_records_and_advances 0 (fun _ => StageOutcome.exc) (by decide)
      (by decide)⟩

/-- C1 — counterexample to the claim as stated.  In a run in which every
stage raises, the claim demands that the cursor is never advanced (it should
stay 0); the engine nevertheless records counter 1 in the checkpoint written
before stage 2 — so a resume from it would skip the failed first stage — and
ends with counter 7. -/
theorem c1_cursor_advances_on_failure :
    (runEngine 0 fun _ => StageOutcome.exc).errors = [0, 1, 2, 3, 4, 5, 6] ∧
    ("before_cutadapt_primer", 1) ∈ (runEngine 0 fun _ => StageOutcome.exc).checkpoints ∧
    (runEngine 0 fun _ => StageOutcome.exc).finalCounter = 7 := by decide

/-- C4 — confirmed.  A checkpoint taken after `N` attempted stages is the
`before_` checkpoint of stage `N` and records cursor `N`; resuming from it
restores cursor `N`, replaces the settings with the override exactly when
one is supplied, and continues from stage `N`, never re-attempting stages
`0 … N-1`. -/
theorem c4_resume_restores_cursor (s0 : String) (ov : Option String) (N : ℕ)
    (outcome : ℕ → StageOutcome) (hN : N < 7)
    (hnf : ∀ i, i < 7 → outcome i ≠ StageOutcome.exitFatal) :
    ("before_" ++ stageName N, N) ∈ (runEngine 0 outcome).checkpoints ∧
    (resume ⟨N, s0⟩ ov).counter = N ∧
    (resume ⟨N, s0⟩ ov).settings = ov.getD s0 ∧
    (runEngine (resume ⟨N, s0⟩ ov).counter outcome).attempted = stageList N ∧
    ∀ i, i < N → i ∉ (runEngine (resume ⟨N, s0⟩ ov).counter outcome).attempted := by
  have hmem : ∀ i ∈ stageList 0, outcome i ≠ StageOutcome.exitFatal := by
    intro i hi
    have hlt : i < 7 := by
      have : i ∈ List.range 7 := List.mem_of_mem_drop hi
      simpa [List.mem_range] using this
    exact hnf i hlt
  have h0 := runSteps_no_fatal outcome (stageList 0) 0 hmem
  have hmemN : ∀ i ∈ stageList N, outcome i ≠ StageOutcome.exitFatal := by
    intro i hi
    have hlt : i < 7 := by
      have : i ∈ List.range 7 := List.mem_of_mem_drop hi
      simpa [List.mem_range] using this
    exact hnf i hlt
  have hN' := runSteps_no_fatal outcome (stageList N) N hmemN
  refine ⟨?_, rfl, rfl, ?_, ?_⟩
  · have hchk := h0.2.2.1
    have : ("before_" ++ stageName N, N)
        ∈ (stageList 0).map (fun i => ("before_" ++ stageName i, i)) := by
      have hNmem : N ∈ stageList 0 := by
        simpa [stageList, List.mem_range] using hN
      exact List.mem_map_of_mem _ hNmem
    rw [show (runEngine 0 outcome).checkpoints
        = (runSteps outcome (stageList 0) 0).checkpoints from rfl, hchk]
    exact List.mem_append_left _ this
  · simpa [runEngine, resume] using hN'.1
  · intro i hi hcontra
    have : i ∈ stageList N := by
      have ha : (runEngine (resume ⟨N, s0⟩ ov).counter outcome).attempted
          = stageList N := by simpa [runEngine, resume] using hN'.1
      rwa [ha] at hcontra
    exact not_mem_stageList_of_lt N i hi this

/-- Witness for `c4_resume_restores_cursor`: resume from the checkpoint
taken after two stages, with an override supplied. -/
theorem c4_resume_restores_cursor_witness :
    2 < 7 ∧
    (∀ i, i < 7 → (fun _ => StageOutcome.ok) i ≠ StageOutcome.exitFatal) ∧
    (("before_" ++ stageName 2, 2) ∈ (runEngine 0 fun _ => StageOutcome.ok).checkpoints ∧
     (resume ⟨2, "old"⟩ (some "override")).counter = 2 ∧
     (resume ⟨2, "old"⟩ (some "override")).settings = (some "override").getD "old" ∧
     (runEngine (resume ⟨2, "old"⟩ (some "override")).counter fun _ => StageOutcome.ok).attempted
       = stageList 2 ∧
     ∀ i, i < 2 →
       i ∉ (runEngine (resume ⟨2, "old"⟩ (some "override")).counter fun _ => StageOutcome.ok).attempted) :=
  ⟨by decide, by decide,
    c4_resume_restores_cursor "old" (some "override") 2 (fun _ => StageOutcome.ok)
      (by decide) (by decide)⟩

/-- C8 — corrected.  Mismatched record counts of a forward/reverse pair do
abort the run fatally and without retry — the demultiplexer's `exit(1)`
raises `SystemExit`, which `except Exception` does not catch — but the check
lives in the demultiplex stage (stage index 3, the fourth stage), so the
three trimming/filtering stages have already been attempted when the run
aborts.  Only the *file count* check of `AllIn.__init__` aborts before any
stage runs. -/
theorem c8_mismatch_aborts_in_demultiplex (r1 r2 : List String)
    (cells : CellTable) (h : r1.length ≠ r2.length)
    (r1Files r2Files : List String) (hf : r1Files.length ≠ r2Files.length)
    (outcome : ℕ → StageOutcome)
    (h0 : outcome 0 ≠ StageOutcome.exitFatal)
    (h1 : outcome 1 ≠ StageOutcome.exitFatal)
    (h2 : outcome 2 ≠ StageOutcome.exitFatal)
    (h3 : outcome 3 = StageOutcome.exitFatal) :
    demultiplexOne r1 r2 cells = Except.error DemError.lengthMismatch ∧
    (runEngine 0 outcome).attempted = [0, 1, 2, 3] ∧
    (runEngine 0 outcome).completed = false ∧
    (runEngine 0 outcome).finalCounter = 3 ∧
    allInStartCheck r1Files r2Files = false := by
  have hd : demultiplexOne r1 r2 cells = Except.error DemError.lengthMismatch := by
    simp [demultiplexOne, h, throw, throwThe, MonadExceptOf.throw]
  have hstart : allInStartCheck r1Files r2Files = false := by
    simp [allInStartCheck, List.isEmpty_iff]
    intro _ _
    simpa using hf
  have hlist : stageList 0 = [0, 1, 2, 3, 4, 5, 6] := rfl
  refine ⟨hd, ?_, ?_, ?_, hstart⟩ <;>
    (rcases ho0 : outcome 0 with _ | _ | _ <;>
     rcases ho1 : outcome 1 with _ | _ | _ <;>
     rcases ho2 : outcome 2 with _ | _ | _ <;>
     first
       | (exact absurd ho0 h0)
       | (exact absurd ho1 h1)
       | (exact absurd ho2 h2)
       | simp [runEngine, hlist, runSteps, ho0, ho1, ho2, h3])

/-- Witness for `c8_mismatch_aborts_in_demultiplex` at a concrete
mismatched fastq pair and the demultiplex-fails outcome map. -/
theorem c8_mismatch_aborts_in_demultiplex_witness :
    (["@r BC1", "A", "+", "I"] : List String).length ≠ ([] : List String).length ∧
    (["a.fastq"] : List String).length ≠ ([] : List String).length ∧
    (demultiplexOne ["@r BC1", "A", "+", "I"] [] [("1A01", [("BC1", "BC2")])]
       = Except.error DemError.lengthMismatch ∧
     (runEngine 0 fun i => if i == 3 then StageOutcome.exitFatal else StageOutcome.ok).attempted
       = [0, 1, 2, 3] ∧
     (runEngine 0 fun i => if i == 3 then StageOutcome.exitFatal else StageOutcome.ok).completed
       = false ∧
     (runEngine 0 fun i => if i == 3 then StageOutcome.exitFatal else StageOutcome.ok).finalCounter
       = 3 ∧
     allInStartCheck ["a.fastq"] [] = false) :=
  ⟨by decide, by decide,
    c8_mismatch_aborts_in_demultiplex ["@r BC1", "A", "+", "I"] []
      [("1A01", [("BC1", "BC2")])] (by decide) ["a.fastq"] [] (by decide)
      (fun i => if i == 3 then StageOutcome.exitFatal else StageOutcome.ok)
      (by decide) (by decide) (by decide) (by decide)⟩

/-- C8 — counterexample to "aborts before any stage runs": with the record
count mismatch first detected inside the demultiplex stage, the engine has
already attempted stages 0, 1 and 2 (the two cutadapt passes and fastp)
when the `SystemExit` aborts the run. -/
theorem c8_three_stages_run_before_abort :
    demultiplexOne ["@r BC1", "A", "+", "I"] [] [("1A01", [("BC1", "BC2")])]
      = Except.error DemError.lengthMismatch ∧
    (runEngine 0 fun i => if i == 3 then StageOutcome.exitFatal else StageOutcome.ok).attempted
      = [0, 1, 2, 3] ∧
    0 ∈ (runEngine 0 fun i => if i == 3 then StageOutcome.exitFatal else StageOutcome.ok).attempted ∧
    (runEngine 0 fun i => if i == 3 then StageOutcome.exitFatal else StageOutcome.ok).completed
      = false := by decide

/-! ### Behaviour of the demultiplexer -/

/-- C2 — corrected.  Every well's frame is filtered independently against
the whole `sequence_df`, so a read pair lands in the bucket of *every* well
whose accepted-pair set contains its (forward-suffix, reverse-suffix) — not
only the first in table iteration order.  The membership characterization
(first conjunct) holds for *every* table, overlapping tables included;
at-most-one-bucket (second conjunct) holds exactly under pairwise disjoint
accepted-pair sets.  The hypothesis on the table keeps the statement inside
the source's domain: on an empty accepted-pair list the source raises
`ValueError` (empty pandas `query` string) where this embedding returns an
empty bucket. -/
theorem c2_assigned_to_every_matching_well (cells : CellTable)
    (rows : List PairRow) (row : PairRow)
    (_hps : ∀ kv ∈ cells, kv.2 ≠ ([] : List (String × String))) :
    (∀ k ps, (k, ps) ∈ cells →
      (row ∈ matchedRows ps rows ↔
        row ∈ rows ∧ ∃ p ∈ ps, row.r1name = p.1 ∧ row.r2name = p.2)) ∧
    ((cells.Pairwise fun a b => ∀ p, p ∈ a.2 → p ∉ b.2) →
      (cellDfs cells rows).Pairwise fun a b => row ∈ a.2 → row ∉ b.2) := by
  have hmem : ∀ ps : List (String × String),
      row ∈ matchedRows ps rows ↔
        row ∈ rows ∧ ∃ p ∈ ps, row.r1name = p.1 ∧ row.r2name = p.2 := by
    intro ps
    simp [matchedRows, List.mem_filter, List.any_eq_true]
  refine ⟨fun k ps _ => hmem ps, fun hdisj => ?_⟩
  rw [cellDfs, List.pairwise_map]
  refine hdisj.imp ?_
  intro a b hab hrowa hrowb
  obtain ⟨-, p, hp, hp1, hp2⟩ := (hmem a.2).mp hrowa
  obtain ⟨-, q, hq, hq1, hq2⟩ := (hmem b.2).mp hrowb
  obtain ⟨pa, pb⟩ := p
  obtain ⟨qa, qb⟩ := q
  simp only at hp1 hp2 hq1 hq2
  subst hp1
  subst hp2
  rw [← hq1, ← hq2] at hq
  exact hab _ hp hq

/-- The single read pair of the C2 inputs. -/
def c2row : PairRow :=
  ⟨"@read1 b1", "b1", "ACGT", "IIII", "@read1 b2", "b2", "TGCA", "IIII"⟩

/-- Forward fastq lines of the C2 example: one read tagged `b1`. -/
def c2r1 : List String := ["@read1 b1", "ACGT", "+", "IIII"]

/-- Reverse fastq lines of the C2 example: one read tagged `b2`. -/
def c2r2 : List String := ["@read1 b2", "TGCA", "+", "IIII"]

/-- A barcode table in which two wells accept the same pair. -/
def overlapCells : CellTable :=
  [("1A01", [("b1", "b2")]), ("1A02", [("b1", "b2")])]

/-- A barcode table whose accepted-pair sets are pairwise disjoint. -/
def disjointCells : CellTable :=
  [("1A01", [("b1", "b2")]), ("1A02", [("b3", "b4")])]

/-- Witness for `c2_assigned_to_every_matching_well`: the membership
characterization instantiated on the *overlapping* table, and the
at-most-one-bucket conjunct instantiated on a disjoint table. -/
theorem c2_assigned_to_every_matching_well_witness :
    ((∀ kv ∈ overlapCells, kv.2 ≠ ([] : List (String × String))) ∧
     (∀ k ps, (k, ps) ∈ overlapCells →
       (c2row ∈ matchedRows ps (buildRows c2r1 c2r2) ↔
         c2row ∈ buildRows c2r1 c2r2 ∧
           ∃ p ∈ ps, c2row.r1name = p.1 ∧ c2row.r2name = p.2))) ∧
    ((∀ kv ∈ disjointCells, kv.2 ≠ ([] : List (String × String))) ∧
     (disjointCells.Pairwise fun a b => ∀ p, p ∈ a.2 → p ∉ b.2) ∧
     (cellDfs disjointCells (buildRows c2r1 c2r2)).Pairwise
       fun a b => c2row ∈ a.2 → c2row ∉ b.2) :=
  ⟨⟨by decide,
     (c2_assigned_to_every_matching_well overlapCells (buildRows c2r1 c2r2)
       c2row (by decide)).1⟩,
   ⟨by decide, by decide,
     (c2_assigned_to_every_matching_well disjointCells (buildRows c2r1 c2r2)
       c2row (by decide)).2 (by decide)⟩⟩

/-- C2 — counterexample to "at most one well": with two wells accepting the
pair (`b1`, `b2`), the single input read pair ends up in both buckets. -/
theorem c2_pair_lands_in_two_buckets :
    (buildRows c2r1 c2r2).length = 1 ∧
    cellDfs overlapCells (buildRows c2r1 c2r2)
      = [("1A01", buildRows c2r1 c2r2), ("1A02", buildRows c2r1 c2r2)] := by
  decide

/-- The barcode table of the spec's C6 example. -/
def cells6 : CellTable := [("1A01", [("BC1", "BC2")])]

/-- C6 forward lines with a matching pair and a `BC9`-tagged pair. -/
def c6r1A : List String :=
  ["@r1 BC1", "A", "+", "I", "@r2 BC9", "A", "+", "I"]

/-- C6 reverse lines with a matching pair and a `BC9`-tagged pair. -/
def c6r2A : List String :=
  ["@r1 BC2", "A", "+", "I", "@r2 BC9", "A", "+", "I"]

/-- C6 forward lines with only the matching pair. -/
def c6r1B : List String := ["@r1 BC1", "A", "+", "I"]

/-- C6 reverse lines with only the matching pair. -/
def c6r2B : List String := ["@r1 BC2", "A", "+", "I"]

/-- The row the C6 example assigns to well `1A01`. -/
def c6row : PairRow :=
  ⟨"@r1 BC1", "BC1", "A", "I", "@r1 BC2", "BC2", "A", "I"⟩

/-- The unmatched `BC9` row of the C6 example. -/
def c6badRow : PairRow :=
  ⟨"@r2 BC9", "BC9", "A", "I", "@r2 BC9", "BC9", "A", "I"⟩

/-- The demultiplexer output shared by both C6 inputs. -/
def c6out : DemOut :=
  ⟨[("1A01", [c6row])], setCount initialPlates 0 0 0 1, [], []⟩

/-- C6 — amended behaviour.  The unmatched `BC9`/`BC9` pair is silently
dropped: the occupancy report shows well `1A01` with count 1, the dropped
pair appears in no bucket, and the entire output is identical to the run
without that pair — the discarded total (1 versus 0 here) is computed
nowhere and appears in no output. -/
theorem c6_unmatched_pair_dropped_silently :
    demultiplexOne c6r1A c6r2A cells6 = Except.ok c6out ∧
    demultiplexOne c6r1B c6r2B cells6 = Except.ok c6out ∧
    specDiscarded cells6 (buildRows c6r1A c6r2A) = 1 ∧
    specDiscarded cells6 (buildRows c6r1B c6r2B) = 0 ∧
    (c6out.buckets.map fun kv => (kv.1, kv.2.length)) = [("1A01", 1)] ∧
    (∀ kv ∈ c6out.buckets, c6badRow ∉ kv.2) := by decide

/-- C6 — counterexample to "counted in a discarded total that is exposed in
the output": two inputs with different discarded counts (1 and 0) produce
the *same* output, so no function of the output can return the discarded
total. -/
theorem c6_discarded_total_not_exposed :
    ¬ ∃ f : DemOut → ℕ, ∀ r1 r2 cells out,
        demultiplexOne r1 r2 cells = Except.ok out →
        f out = specDiscarded cells (buildRows r1 r2) := by
  rintro ⟨f, hf⟩
  have hA : f c6out = 1 := by
    rw [hf c6r1A c6r2A cells6 c6out (by decide)]
    decide
  have hB : f c6out = 0 := by
    rw [hf c6r1B c6r2B cells6 c6out (by decide)]
    decide
  rw [hA] at hB
  exact one_ne_zero hB

/-- On a one-well table, the counting loop is a single counting step. -/
theorem countPlates_singleton (name : String) (df : List PairRow) :
    countPlates [(name, df)]
      = countStep (initialPlates, [], []) name df.length := by
  show countStep (initialPlates, [], []) name df.length >>= _ = _
  cases countStep (initialPlates, [], []) name df.length <;> rfl

/-- The counting step on a four-character well code, as a case tree over the
plate digit and the two label lookups: the only error exits are the plate
number computation; label misses take the enlargement branch. -/
theorem countStep_mk4 (acc : Plates × Enlarged × List String)
    (p r c1 c2 : Char) (n : ℕ) :
    countStep acc (String.mk [p, r, c1, c2]) n =
      if p.isDigit then
        match pyListIdx 6 ((p.toNat : ℤ) - ('0'.toNat : ℤ) - 1) with
        | none => Except.error PyError.indexError
        | some pIdx =>
          match rowLabels.findIdx? (fun x => x == r),
              colLabels.findIdx? (fun x => x == String.mk [c1, c2]) with
          | some rIdx, some cIdx =>
            Except.ok (setCount acc.1 pIdx rIdx cIdx n, acc.2.1,
              if n == 0 then acc.2.2 ++ [String.mk [p, r, c1, c2]]
              else acc.2.2)
          | _, _ =>
            Except.ok (acc.1,
              upsertCell acc.2.1 (pIdx, r, String.mk [c1, c2]) n,
              if n == 0 then acc.2.2 ++ [String.mk [p, r, c1, c2]]
              else acc.2.2)
      else Except.error PyError.valueError := by
  have h48 : ('0'.toNat : ℤ) = 48 := rfl
  rw [h48]
  by_cases hp : p.isDigit
  · cases hpy : pyListIdx 6 ((p.toNat : ℤ) - 48 - 1) with
    | none =>
      simp [countStep, hp, hpy, throw, throwThe, MonadExceptOf.throw, bind,
        Except.bind, Functor.map, Except.map, pure, Except.pure]
    | some pIdx =>
      cases hr : rowLabels.findIdx? (fun x => x == r) with
      | none =>
        simp [countStep, hp, hpy, hr, throw, throwThe, MonadExceptOf.throw,
          bind, Except.bind, Functor.map, Except.map, pure, Except.pure]
      | some rIdx =>
        cases hc : colLabels.findIdx? (fun x => x == String.mk [c1, c2]) with
        | none =>
          simp [countStep, hp, hpy, hr, hc, throw, throwThe,
            MonadExceptOf.throw, bind, Except.bind, Functor.map, Except.map,
            pure, Except.pure]
        | some cIdx =>
          simp [countStep, hp, hpy, hr, hc, throw, throwThe,
            MonadExceptOf.throw, bind, Except.bind, Functor.map, Except.map,
            pure, Except.pure]
  · simp [countStep, hp, throw, throwThe, MonadExceptOf.throw, bind,
      Except.bind, Functor.map, Except.map, pure, Except.pure]

/-- `findIdx?` with an equality test finds nothing exactly for non-members. -/
theorem findIdx?_beq_eq_none {α : Type} [DecidableEq α] (l : List α) (c : α)
    (h : c ∉ l) : l.findIdx? (fun x => x == c) = none := by
  induction l with
  | nil => rfl
  | cons a t ih =>
    rw [List.mem_cons, not_or] at h
    rw [List.findIdx?_cons]
    have : (a == c) = false := by
      simpa using fun hac => h.1 hac.symm
    simp [this, ih h.2]

/-- Any well code with a valid plate number is counted without error:
whatever the row and column labels, the `.at` assignment either writes into
the grid or enlarges the frame. -/
theorem countStep_isOk_of_digit (acc : Plates × Enlarged × List String)
    (p r c1 c2 : Char) (n : ℕ) (i : ℕ)
    (hp : p.isDigit = true)
    (hpy : pyListIdx 6 ((p.toNat : ℤ) - ('0'.toNat : ℤ) - 1) = some i) :
    (countStep acc (String.mk [p, r, c1, c2]) n).isOk = true := by
  rw [countStep_mk4, if_pos hp, hpy]
  cases hr : rowLabels.findIdx? (fun x => x == r) <;>
    cases hc : colLabels.findIdx? (fun x => x == String.mk [c1, c2]) <;>
      simp [hr, hc, Except.isOk, Except.toBool]

/-- A one-well table whose row or column label is off the grid is counted by
silent enlargement: no exception, the 8×12 grids untouched, the count stored
under the new label. -/
theorem countPlates_enlarge_single (p r c1 c2 : Char) (df : List PairRow)
    (i : ℕ) (hp : p.isDigit = true)
    (hpy : pyListIdx 6 ((p.toNat : ℤ) - ('0'.toNat : ℤ) - 1) = some i)
    (hout : r ∉ rowLabels ∨ String.mk [c1, c2] ∉ colLabels) :
    countPlates [(String.mk [p, r, c1, c2], df)]
      = Except.ok (initialPlates,
          [((i, r, String.mk [c1, c2]), df.length)],
          if df.length == 0 then [String.mk [p, r, c1, c2]] else []) := by
  rw [countPlates_singleton, countStep_mk4, if_pos hp, hpy]
  rcases hout with h | h
  · rw [findIdx?_beq_eq_none rowLabels r h]
    cases hc : colLabels.findIdx? (fun x => x == String.mk [c1, c2]) <;>
      simp [upsertCell]
  · rw [findIdx?_beq_eq_none colLabels _ h]
    cases hr : rowLabels.findIdx? (fun x => x == r) <;>
      simp [upsertCell]

/-- C10 — corrected.  Occupancy counting raises only for plate-number
problems: a non-digit first character raises `ValueError` and plate digits
`7`–`9` raise `IndexError`, but — contrary to the claim — plate digit `0`
does not raise (`int("0") - 1 = -1` wraps to plate No. 6), and row or
column labels outside `A`–`H` × `01`–`12` do not raise either: the pandas
`.at` setter falls back to `.loc` setting-with-enlargement, silently adding
the label, so every code with plate digit `0`–`6` produces a report. -/
theorem c10_occupancy_bounds (p r c1 c2 : Char) (df : List PairRow) :
    (p.isDigit = false →
      countPlates [(String.mk [p, r, c1, c2], df)]
        = Except.error PyError.valueError) ∧
    (p ∈ ['7', '8', '9'] →
      countPlates [(String.mk [p, r, c1, c2], df)]
        = Except.error PyError.indexError) ∧
    (p ∈ ['0', '1', '2', '3', '4', '5', '6'] →
      (countPlates [(String.mk [p, r, c1, c2], df)]).isOk = true) ∧
    (p ∈ ['0', '1', '2', '3', '4', '5', '6'] →
      r ∉ rowLabels ∨ String.mk [c1, c2] ∉ colLabels →
      ∃ i, pyListIdx 6 ((p.toNat : ℤ) - ('0'.toNat : ℤ) - 1) = some i ∧
        countPlates [(String.mk [p, r, c1, c2], df)]
          = Except.ok (initialPlates,
              [((i, r, String.mk [c1, c2]), df.length)],
              if df.length == 0 then [String.mk [p, r, c1, c2]] else [])) := by
  refine ⟨?_, ?_, ?_, ?_⟩
  · intro hp
    rw [countPlates_singleton, countStep_mk4]
    simp [hp]
  · intro hp
    rw [countPlates_singleton, countStep_mk4]
    fin_cases hp <;> rfl
  · intro hp
    rw [countPlates_singleton]
    fin_cases hp <;>
      exact countStep_isOk_of_digit _ _ _ _ _ _ _ rfl rfl
  · intro hp hout
    fin_cases hp
    · exact ⟨5, rfl, countPlates_enlarge_single _ r c1 c2 df 5 rfl rfl hout⟩
    · exact ⟨0, rfl, countPlates_enlarge_single _ r c1 c2 df 0 rfl rfl hout⟩
    · exact ⟨1, rfl, countPlates_enlarge_single _ r c1 c2 df 1 rfl rfl hout⟩
    · exact ⟨2, rfl, countPlates_enlarge_single _ r c1 c2 df 2 rfl rfl hout⟩
    · exact ⟨3, rfl, countPlates_enlarge_single _ r c1 c2 df 3 rfl rfl hout⟩
    · exact ⟨4, rfl, countPlates_enlarge_single _ r c1 c2 df 4 rfl rfl hout⟩
    · exact ⟨5, rfl, countPlates_enlarge_single _ r c1 c2 df 5 rfl rfl hout⟩

/-- Witness for `c10_occupancy_bounds`: plate digit 7 raises `IndexError`,
the in-bounds code `1A01` succeeds, and the off-grid row `Z` of `1Z01` is
counted by enlargement instead of raising. -/
theorem c10_occupancy_bounds_witness :
    (('7' : Char) ∈ ['7', '8', '9'] ∧
      countPlates [(String.mk ['7', 'A', '0', '1'], [])]
        = Except.error PyError.indexError) ∧
    (('1' : Char) ∈ ['0', '1', '2', '3', '4', '5', '6'] ∧
      (countPlates [(String.mk ['1', 'A', '0', '1'], [])]).isOk = true) ∧
    (('1' : Char) ∈ ['0', '1', '2', '3', '4', '5', '6'] ∧
      (('Z' : Char) ∉ rowLabels ∨ String.mk ['0', '1'] ∉ colLabels) ∧
      ∃ i, pyListIdx 6 (('1'.toNat : ℤ) - ('0'.toNat : ℤ) - 1) = some i ∧
        countPlates [(String.mk ['1', 'Z', '0', '1'], ([] : List PairRow))]
          = Except.ok (initialPlates,
              [((i, 'Z', String.mk ['0', '1']), ([] : List PairRow).length)],
              if ([] : List PairRow).length == 0
              then [String.mk ['1', 'Z', '0', '1']] else [])) :=
  ⟨⟨by decide, (c10_occupancy_bounds '7' 'A' '0' '1' []).2.1 (by decide)⟩,
   ⟨by decide, (c10_occupancy_bounds '1' 'A' '0' '1' []).2.2.1 (by decide)⟩,
   ⟨by decide, by decide,
     (c10_occupancy_bounds '1' 'Z' '0' '1' []).2.2.2 (by decide) (by decide)⟩⟩

/-- A barcode table whose well code has plate digit 0. -/
def zeroCells : CellTable := [("0A01", [("b1", "b2")])]

/-- The single row of the C10 example. -/
def c10row : PairRow :=
  ⟨"@r b1", "b1", "A", "I", "@r b2", "b2", "A", "I"⟩

/-- C10 — counterexample.  Plate digit 0 is outside the claimed 1–6 bound,
yet the occupancy step raises nothing: `plate[-1]` wraps around and the
count lands in plate index 5 (plate No. 6). -/
theorem c10_plate_zero_wraps_to_plate_six :
    demultiplexOne ["@r b1", "A", "+", "I"] ["@r b2", "A", "+", "I"] zeroCells
      = Except.ok
          ⟨[("0A01", [c10row])], setCount initialPlates 5 0 0 1, [], []⟩ := by
  decide

/-! ### Behaviour of the consensus resolver -/

/-- Inserting a hit permutes consing it on. -/
theorem insertByEvalue_perm (a : Hit) (l : List Hit) :
    (insertByEvalue a l).Perm (a :: l) := by
  induction l with
  | nil => exact List.Perm.refl _
  | cons b t ih =>
    unfold insertByEvalue
    by_cases h : b.evalue ≤ a.evalue
    · rw [if_pos h]
      exact (ih.cons b).trans (List.Perm.swap a b t)
    · rw [if_neg h]

/-- The insertion-sort fold permutes the accumulator followed by the input. -/
theorem foldl_insert_perm :
    ∀ (l acc : List Hit),
      (l.foldl (fun acc a => insertByEvalue a acc) acc).Perm (acc ++ l)
  | [], acc => by simp
  | a :: t, acc => by
    rw [List.foldl_cons]
    refine (foldl_insert_perm t (insertByEvalue a acc)).trans ?_
    refine (((insertByEvalue_perm a acc).append_right t).trans ?_)
    exact List.perm_middle.symm

/-- The e-value sort is a permutation. -/
theorem sortByEvalue_perm (l : List Hit) : (sortByEvalue l).Perm l := by
  simpa [sortByEvalue] using foldl_insert_perm l []

/-- Insertion preserves sortedness by e-value. -/
theorem sorted_insertByEvalue {a : Hit} :
    ∀ {l : List Hit}, l.Pairwise (fun x y => x.evalue ≤ y.evalue) →
      (insertByEvalue a l).Pairwise (fun x y => x.evalue ≤ y.evalue) := by
  intro l
  induction l with
  | nil => intro _; simp [insertByEvalue]
  | cons b t ih =>
    intro h
    rw [List.pairwise_cons] at h
    unfold insertByEvalue
    by_cases hba : b.evalue ≤ a.evalue
    · rw [if_pos hba, List.pairwise_cons]
      refine ⟨?_, ih h.2⟩
      intro y hy
      rcases List.mem_cons.mp ((insertByEvalue_perm a t).mem_iff.mp hy)
        with rfl | hyt
      · exact hba
      · exact h.1 y hyt
    · rw [if_neg hba, List.pairwise_cons]
      have hab : a.evalue ≤ b.evalue := le_of_not_le hba
      refine ⟨?_, List.pairwise_cons.mpr h⟩
      intro y hy
      rcases List.mem_cons.mp hy with rfl | hyt
      · exact hab
      · exact hab.trans (h.1 y hyt)

/-- The e-value sort sorts. -/
theorem sortByEvalue_sorted (l : List Hit) :
    (sortByEvalue l).Pairwise (fun x y => x.evalue ≤ y.evalue) := by
  suffices h : ∀ (l acc : List Hit),
      acc.Pairwise (fun x y => x.evalue ≤ y.evalue) →
      (l.foldl (fun acc a => insertByEvalue a acc) acc).Pairwise
        (fun x y => x.evalue ≤ y.evalue) by
    exact h l [] List.Pairwise.nil
  intro l
  induction l with
  | nil => intro acc h; simpa using h
  | cons a t ih =>
    intro acc h
    rw [List.foldl_cons]
    exact ih _ (sorted_insertByEvalue h)

/-- `min?` on rationals characterised as the attained lower bound. -/
theorem minQ_eq_some_iff {l : List ℚ} {m : ℚ} :
    l.min? = some m ↔ m ∈ l ∧ ∀ b ∈ l, m ≤ b := by
  haveI : Std.Antisymm ((· : ℚ) ≤ ·) := ⟨fun h1 h2 => le_antisymm h1 h2⟩
  exact List.min?_eq_some_iff (fun a => le_refl a) (fun a b => min_choice a b)
    (fun _ _ _ => le_min_iff)

/-- `max?` on rationals characterised as the attained upper bound. -/
theorem maxQ_eq_some_iff {l : List ℚ} {m : ℚ} :
    l.max? = some m ↔ m ∈ l ∧ ∀ b ∈ l, b ≤ m := by
  haveI : Std.Antisymm ((· : ℚ) ≤ ·) := ⟨fun h1 h2 => le_antisymm h1 h2⟩
  exact List.max?_eq_some_iff (fun a => le_refl a) (fun a b => max_choice a b)
    (fun _ _ _ => max_le_iff)

/-- `min?` is a permutation invariant. -/
theorem minQ_perm {l₁ l₂ : List ℚ} (h : l₁.Perm l₂) : l₁.min? = l₂.min? := by
  cases hm : l₁.min? with
  | none =>
    rw [List.min?_eq_none_iff] at hm
    rw [hm] at h
    rw [List.min?_eq_none_iff.mpr (List.perm_nil.mp h.symm)]
  | some m =>
    rw [minQ_eq_some_iff] at hm
    exact (minQ_eq_some_iff.mpr
      ⟨h.mem_iff.mp hm.1, fun b hb => hm.2 b (h.mem_iff.mpr hb)⟩).symm

/-- `max?` is a permutation invariant. -/
theorem maxQ_perm {l₁ l₂ : List ℚ} (h : l₁.Perm l₂) : l₁.max? = l₂.max? := by
  cases hm : l₁.max? with
  | none =>
    rw [List.max?_eq_none_iff] at hm
    rw [hm] at h
    rw [List.max?_eq_none_iff.mpr (List.perm_nil.mp h.symm)]
  | some m =>
    rw [maxQ_eq_some_iff] at hm
    exact (maxQ_eq_some_iff.mpr
      ⟨h.mem_iff.mp hm.1, fun b hb => hm.2 b (h.mem_iff.mpr hb)⟩).symm

/-- Membership in the winner set of `chooseHighestScore`: exactly the rows
attaining both the minimum e-value and the maximum bit-score. -/
theorem mem_chooseHighestScore (b : BlastResultInfo) (x : Hit) :
    x ∈ (chooseHighestScore b).result ↔
      x ∈ b.result ∧ (b.result.map Hit.evalue).min? = some x.evalue ∧
        (b.result.map Hit.bitscore).max? = some x.bitscore := by
  have hperm := sortByEvalue_perm b.result
  have hminE : ((sortByEvalue b.result).map Hit.evalue).min?
      = (b.result.map Hit.evalue).min? := minQ_perm (hperm.map _)
  have hmaxB : ((sortByEvalue b.result).map Hit.bitscore).max?
      = (b.result.map Hit.bitscore).max? := maxQ_perm (hperm.map _)
  show x ∈ (sortByEvalue b.result).filter _ ↔ _
  rw [List.mem_filter]
  constructor
  · rintro ⟨hmem, hcond⟩
    rw [decide_eq_true_eq] at hcond
    exact ⟨hperm.mem_iff.mp hmem,
      by rw [← hminE]; exact hcond.1.symm,
      by rw [← hmaxB]; exact hcond.2.symm⟩
  · rintro ⟨hmem, he, hb⟩
    refine ⟨hperm.mem_iff.mpr hmem, ?_⟩
    rw [decide_eq_true_eq]
    exact ⟨by rw [hminE]; exact he.symm, by rw [hmaxB]; exact hb.symm⟩

/-- C5 — confirmed.  On a nonempty hit table, `_choose_highest_score`
returns exactly the hits whose e-value equals the minimum e-value of the
table *and* whose bit-score equals the maximum bit-score of the table, with
all tied hits preserved (membership is characterised, so no tie is
collapsed). -/
theorem c5_choose_highest_score_spec (b : BlastResultInfo)
    (_hne : b.result ≠ []) (x : Hit) :
    x ∈ (chooseHighestScore b).result ↔
      x ∈ b.result ∧ (b.result.map Hit.evalue).min? = some x.evalue ∧
        (b.result.map Hit.bitscore).max? = some x.bitscore :=
  mem_chooseHighestScore b x

/-- Two tied best hits of one query: same subject, same scores, differing
payload. -/
def hX1 : Hit := ⟨"q", "X", 90, 100, 1, 50, "f1", "n1", "s1"⟩

/-- The second tied hit (from a second replicate). -/
def hX2 : Hit := ⟨"q", "X", 80, 100, 1, 50, "f2", "n2", "s2"⟩

/-- A hit on the same subject with a strictly larger e-value. -/
def hX3 : Hit := ⟨"q", "X", 70, 100, 2, 40, "f3", "n3", "s3"⟩

/-- Per-set result holding `hX1`. -/
def rr1 : BlastResultInfo := ⟨[hX1], "f1", "n1", "s1", false⟩

/-- Per-set result holding `hX2`. -/
def rr2 : BlastResultInfo := ⟨[hX2], "f2", "n2", "s2", false⟩

/-- Per-set result holding `hX3`. -/
def rr3 : BlastResultInfo := ⟨[hX3], "f3", "n3", "s3", false⟩

/-- A two-row result table for the C5 witness. -/
def c5table : BlastResultInfo := ⟨[hX1, hX3], "f1", "n1", "s1", false⟩

/-- Witness for `c5_choose_highest_score_spec` on a two-row table. -/
theorem c5_choose_highest_score_spec_witness :
    c5table.result ≠ [] ∧
    (hX1 ∈ (chooseHighestScore c5table).result ↔
      hX1 ∈ c5table.result ∧
        (c5table.result.map Hit.evalue).min? = some hX1.evalue ∧
        (c5table.result.map Hit.bitscore).max? = some hX1.bitscore) :=
  ⟨by decide, c5_choose_highest_score_spec c5table (by decide) hX1⟩

/-- C9 — confirmed.  `_choose_highest_score` is idempotent on the winner
set: a second application keeps exactly the winners of the first. -/
theorem c9_choose_highest_score_idempotent (b : BlastResultInfo) (x : Hit) :
    x ∈ (chooseHighestScore (chooseHighestScore b)).result ↔
      x ∈ (chooseHighestScore b).result := by
  rw [mem_chooseHighestScore]
  constructor
  · rintro ⟨h1, -, -⟩
    exact h1
  · intro h1
    have hx := (mem_chooseHighestScore b x).mp h1
    refine ⟨h1, ?_, ?_⟩
    · rw [minQ_eq_some_iff]
      refine ⟨List.mem_map_of_mem _ h1, ?_⟩
      intro v hv
      obtain ⟨y, hy, rfl⟩ := List.mem_map.mp hv
      have hyy := (mem_chooseHighestScore b y).mp hy
      have : some x.evalue = some y.evalue := by
        rw [← hx.2.1, ← hyy.2.1]
      rw [← Option.some.inj this]
    · rw [maxQ_eq_some_iff]
      refine ⟨List.mem_map_of_mem _ h1, ?_⟩
      intro v hv
      obtain ⟨y, hy, rfl⟩ := List.mem_map.mp hv
      have hyy := (mem_chooseHighestScore b y).mp hy
      have : some x.bitscore = some y.bitscore := by
        rw [← hx.2.2, ← hyy.2.2]
      rw [← Option.some.inj this]

/-- Membership in a fold of unions. -/
theorem mem_foldl_union (x : String) :
    ∀ (l : List (Finset String)) (init : Finset String),
      x ∈ l.foldl (· ∪ ·) init ↔ x ∈ init ∨ ∃ t ∈ l, x ∈ t
  | [], init => by simp
  | a :: t, init => by
    rw [List.foldl_cons, mem_foldl_union x t]
    simp [Finset.mem_union]
    tauto

/-- Membership in a fold of intersections. -/
theorem mem_foldl_inter (x : String) :
    ∀ (l : List (Finset String)) (init : Finset String),
      x ∈ l.foldl (· ∩ ·) init ↔ x ∈ init ∧ ∀ t ∈ l, x ∈ t
  | [], init => by simp
  | a :: t, init => by
    rw [List.foldl_cons, mem_foldl_inter x t]
    simp [Finset.mem_inter]
    tauto

/-- The union accumulator holds the accessions of some table. -/
theorem mem_unionAcc (rs : List BlastResultInfo) (x : String) :
    x ∈ unionAcc rs ↔ ∃ r ∈ rs, x ∈ accSet r := by
  rw [unionAcc, mem_foldl_union x]
  simp

/-- The source's fold of intersections seeded with the union equals the
spec's "accessions common to all per-set result tables". -/
theorem interAcc_eq_commonAcc (rs : List BlastResultInfo) :
    interAcc rs = commonAcc rs := by
  ext x
  rw [interAcc, mem_foldl_inter x]
  rw [commonAcc, Finset.mem_filter]
  simp [mem_unionAcc]

/-- The append-filter fold of `_get_result_intersection` is concatenation
followed by one filter. -/
theorem foldl_append_filter (p : Hit → Bool) :
    ∀ (ds : List (List Hit)) (acc : List Hit),
      ds.foldl (fun acc d => acc ++ d.filter p) acc
        = acc ++ ds.flatten.filter p
  | [], acc => by simp
  | d :: t, acc => by
    rw [List.foldl_cons, foldl_append_filter p t]
    simp [List.filter_append]

/-- C3 — confirmed.  When at least two per-ContigSet results survive, the
multi resolution returns `None` exactly when no accession is common to all
per-set tables; otherwise it returns the concatenation of all rows with a
common accession, sorted by ascending e-value, deduplicated by accession
keeping the lowest-e-value occurrence, with the `intersection` flag set. -/
theorem c3_consensus_by_intersection (individual : List (Option BlastResultInfo))
    (h2 : 2 ≤ (individual.filterMap id).length) :
    (commonAcc (individual.filterMap id) = ∅ →
      blastSearchMulti individual = none) ∧
    (commonAcc (individual.filterMap id) ≠ ∅ →
      (blastSearchMulti individual).map (fun c => (c.result, c.intersection))
        = some (consensusRows (individual.filterMap id), true)) := by
  cases hir : individual.filterMap id with
  | nil => rw [hir] at h2; simp at h2
  | cons r rest =>
    cases rest with
    | nil => rw [hir] at h2; simp at h2
    | cons r2 t =>
      have hbs : blastSearchMulti individual
          = getResultIntersection (r :: r2 :: t) := by
        rw [blastSearchMulti, hir]
      rw [hbs]
      rw [getResultIntersection, interAcc_eq_commonAcc]
      constructor
      · intro hempty
        rw [hempty]
        simp
      · intro hne
        have hcard : 0 < (commonAcc (r :: r2 :: t)).card :=
          Finset.card_pos.mpr (Finset.nonempty_iff_ne_empty.mpr hne)
        rw [if_pos hcard, foldl_append_filter]
        rfl

/-- Witness for `c3_consensus_by_intersection` on the spec's two-replicate
example shape: both tables share accession `X`. -/
theorem c3_consensus_by_intersection_witness :
    2 ≤ (([some rr1, some rr3] : List (Option BlastResultInfo)).filterMap id).length ∧
    commonAcc (([some rr1, some rr3] : List (Option BlastResultInfo)).filterMap id) ≠ ∅ ∧
    (blastSearchMulti [some rr1, some rr3]).map (fun c => (c.result, c.intersection))
      = some (consensusRows (([some rr1, some rr3] : List (Option BlastResultInfo)).filterMap id),
          true) :=
  ⟨by decide, by decide,
    (c3_consensus_by_intersection [some rr1, some rr3] (by decide)).2 (by decide)⟩

/-- `commonAcc` is a permutation invariant. -/
theorem commonAcc_perm {rs₁ rs₂ : List BlastResultInfo} (h : rs₁.Perm rs₂) :
    commonAcc rs₁ = commonAcc rs₂ := by
  ext x
  rw [commonAcc, commonAcc, Finset.mem_filter, Finset.mem_filter,
    mem_unionAcc, mem_unionAcc]
  constructor
  · rintro ⟨⟨r, hr, hx⟩, hall⟩
    exact ⟨⟨r, h.mem_iff.mp hr, hx⟩, fun s hs => hall s (h.mem_iff.mpr hs)⟩
  · rintro ⟨⟨r, hr, hx⟩, hall⟩
    exact ⟨⟨r, h.mem_iff.mpr hr, hx⟩, fun s hs => hall s (h.mem_iff.mp hs)⟩

/-- When all e-values across the concatenated tables are pairwise distinct,
`_get_result_intersection` is a permutation invariant. -/
theorem getResultIntersection_perm (rs₁ rs₂ : List BlastResultInfo)
    (hperm : rs₁.Perm rs₂)
    (hdist : ((rs₁.map BlastResultInfo.result).flatten).Pairwise
      fun a b => a.evalue ≠ b.evalue) :
    getResultIntersection rs₁ = getResultIntersection rs₂ := by
  have hcomm : commonAcc rs₁ = commonAcc rs₂ := commonAcc_perm hperm
  have hflat : ((rs₁.map BlastResultInfo.result).flatten).Perm
      ((rs₂.map BlastResultInfo.result).flatten) :=
    (hperm.map BlastResultInfo.result).flatten
  have hdist₂ : ((rs₂.map BlastResultInfo.result).flatten).Pairwise
      (fun a b => a.evalue ≠ b.evalue) :=
    (hflat.pairwise_iff fun hab => hab.symm).mp hdist
  have hrows : sortByEvalue (((rs₁.map BlastResultInfo.result).flatten).filter
        fun h => decide (h.saccver ∈ commonAcc rs₂))
      = sortByEvalue (((rs₂.map BlastResultInfo.result).flatten).filter
        fun h => decide (h.saccver ∈ commonAcc rs₂)) := by
    set p : Hit → Bool := fun h => decide (h.saccver ∈ commonAcc rs₂) with hp
    haveI : IsAntisymm Hit (fun a b : Hit => a.evalue < b.evalue) :=
      ⟨fun _ _ h1 h2 => absurd h2 (not_lt.mpr h1.le)⟩
    have hps : (sortByEvalue (((rs₁.map BlastResultInfo.result).flatten).filter p)).Perm
        (sortByEvalue (((rs₂.map BlastResultInfo.result).flatten).filter p)) :=
      (sortByEvalue_perm _).trans ((hflat.filter p).trans (sortByEvalue_perm _).symm)
    have hlt : ∀ (l : List Hit),
        l.Pairwise (fun a b => a.evalue ≠ b.evalue) →
        (sortByEvalue (l.filter p)).Pairwise (fun a b : Hit => a.evalue < b.evalue) := by
      intro l hl
      have hsorted := sortByEvalue_sorted (l.filter p)
      have hne : (sortByEvalue (l.filter p)).Pairwise
          (fun a b => a.evalue ≠ b.evalue) :=
        ((sortByEvalue_perm (l.filter p)).pairwise_iff fun hab => hab.symm).mpr
          (hl.filter p)
      exact (hsorted.and hne).imp fun hab => lt_of_le_of_ne hab.1 hab.2
    exact List.eq_of_perm_of_sorted hps (hlt _ hdist) (hlt _ hdist₂)
  rw [getResultIntersection, getResultIntersection, interAcc_eq_commonAcc,
    interAcc_eq_commonAcc, hcomm, foldl_append_filter, foldl_append_filter,
    List.nil_append, List.nil_append]
  simp only [hrows]

/-- C7 — corrected (amended).  Permuting the per-ContigSet results does not
change the resolution as long as no two hit rows tie on e-value; with a tie
the kept duplicate depends on the input order (see the counterexample). -/
theorem c7_resolution_permutation_invariant
    (l₁ l₂ : List (Option BlastResultInfo)) (hperm : l₁.Perm l₂)
    (hdist : (((l₁.filterMap id).map BlastResultInfo.result).flatten).Pairwise
      fun a b => a.evalue ≠ b.evalue) :
    blastSearchMulti l₁ = blastSearchMulti l₂ := by
  have hir : (l₁.filterMap id).Perm (l₂.filterMap id) := hperm.filterMap id
  cases h1 : l₁.filterMap id with
  | nil =>
    rw [h1] at hir
    have h2 : l₂.filterMap id = [] := List.perm_nil.mp hir.symm
    rw [blastSearchMulti, blastSearchMulti, h1, h2]
  | cons r rest =>
    cases rest with
    | nil =>
      rw [h1] at hir
      have h2 : l₂.filterMap id = [r] := List.perm_singleton.mp hir.symm
      rw [blastSearchMulti, blastSearchMulti, h1, h2]
    | cons r2 t =>
      rw [h1] at hir hdist
      obtain ⟨s, s2, u, h2⟩ : ∃ s s2 u, l₂.filterMap id = s :: s2 :: u := by
        have hlen : 2 ≤ (l₂.filterMap id).length := by
          rw [← hir.length_eq]
          simp
        match hh : l₂.filterMap id with
        | [] => rw [hh] at hlen; simp at hlen
        | [x] => rw [hh] at hlen; simp at hlen
        | x :: y :: u => exact ⟨x, y, u, rfl⟩
      rw [h2] at hir
      rw [blastSearchMulti, blastSearchMulti, h1, h2]
      exact getResultIntersection_perm _ _ hir hdist

/-- Witness for `c7_resolution_permutation_invariant`: two single-row
results with distinct e-values, swapped. -/
theorem c7_resolution_permutation_invariant_witness :
    ([some rr1, some rr3] : List (Option BlastResultInfo)).Perm
      [some rr3, some rr1] ∧
    ((([some rr1, some rr3] : List (Option BlastResultInfo)).filterMap id).map
        BlastResultInfo.result).flatten.Pairwise
      (fun a b => a.evalue ≠ b.evalue) ∧
    blastSearchMulti [some rr1, some rr3] = blastSearchMulti [some rr3, some rr1] :=
  ⟨List.Perm.swap (some rr3) (some rr1) [], by decide,
    c7_resolution_permutation_invariant [some rr1, some rr3]
      [some rr3, some rr1] (List.Perm.swap (some rr3) (some rr1) []) (by decide)⟩

/-- C7 — counterexample to unconditional order independence.  Two replicate
results tie on accession `X` at the same e-value but differ in payload;
dedup-keep-first then keeps whichever came first, so swapping the inputs
changes the consensus row. -/
theorem c7_tie_depends_on_order :
    ([some rr2, some rr1] : List (Option BlastResultInfo)).Perm
      [some rr1, some rr2] ∧
    blastSearchMulti [some rr1, some rr2] ≠ blastSearchMulti [some rr2, some rr1] :=
  ⟨List.Perm.swap (some rr1) (some rr2) [], by decide⟩

end NoduleNGS
